import Mathlib

/-!
Verification of the scheduling and delivery control loop of
`vix_monitor_service.py`.

Modelling conventions (shallow embedding):

* A KST instant is a `Nat`: seconds since 1970-01-01 00:00 KST.  KST is a
  fixed-offset timezone (UTC+9, no DST), so every wall-clock field of an
  aware `datetime` in KST is a pure function of this number.  Python
  datetimes carry microseconds; truncating to whole seconds preserves every
  comparison made by the code, because each threshold compared against
  (`target_time_today`, `next_target_time_kst`, window bounds) has
  `second=0, microsecond=0`, i.e. is an integral number of seconds.
* The New York timezone's DST test (`ny_time_equivalent.dst()`) is a pure
  function of the instant; zoneinfo is external, so it is a parameter
  `dst : Nat → Bool` of the embedding.  Concrete theorems instantiate it
  with functions that agree with the real America/New_York rule on the
  instants they mention.
* `datetime.replace(hour=h, minute=m, second=0, microsecond=0)` validates
  `0 <= h <= 23` and `0 <= m <= 59` and raises `ValueError` otherwise; it is
  embedded as an `Option`-returning function (`none` = exception).
* Python `int` is `Int`; the configured hour/minute come from the
  environment or the `/set-time` form as ints.
-/

/-- ScheduleConfig: the mutable pair `BASE_TARGET_HOUR_KST`,
`BASE_TARGET_MINUTE_KST` (module globals, lines 294-295, updated by the
`/set-time` endpoint). -/
structure ScheduleConfig where
  baseHour : Int
  baseMinute : Int
deriving DecidableEq

/-- get_target_hour_for_kst_date (lines 590-607): effective KST send hour
for the instant `t`; subtracts one from the base hour when New York DST is
active at `t` (the code converts the full KST datetime to New York and
tests `.dst()`, so the test is on the instant, not just the calendar
date). -/
def get_target_hour_for_kst_date (dst : Nat → Bool) (cfg : ScheduleConfig) (t : Nat) : Int :=
  if dst t then cfg.baseHour - 1 else cfg.baseHour

/-- mkTarget t h m: the KST instant on the same calendar date as `t` with
wall clock h:m:00 (the value produced by a successful
`t.replace(hour=h, minute=m, second=0, microsecond=0)`). -/
def mkTarget (t : Nat) (h m : Int) : Nat :=
  t / 86400 * 86400 + h.toNat * 3600 + m.toNat * 60

/-- dtReplace embeds `t.replace(hour=h, minute=m, second=0, microsecond=0)`
on an aware KST datetime: `none` models the `ValueError` Python raises when
the hour or minute is out of range. -/
def dtReplace (t : Nat) (h m : Int) : Option Nat :=
  if 0 ≤ h ∧ h ≤ 23 ∧ 0 ≤ m ∧ m ≤ 59 then some (mkTarget t h m) else none

/-- calculate_next_target_time (lines 610-645): today's DST-corrected
candidate; if `now >= candidate`, tomorrow's candidate with the effective
hour recomputed for `now + 1 day`.  `none` models the `ValueError` path
(caught at the monitor loop's tick boundary). -/
def calculate_next_target_time (dst : Nat → Bool) (cfg : ScheduleConfig) (now : Nat) :
    Option Nat :=
  match dtReplace now (get_target_hour_for_kst_date dst cfg now) cfg.baseMinute with
  | none => none
  | some targetToday =>
    if targetToday ≤ now then
      dtReplace (now + 86400) (get_target_hour_for_kst_date dst cfg (now + 86400))
        cfg.baseMinute
    else
      some targetToday

/-- nyDstSpring2024 is the America/New_York DST indicator, expressed on KST
instants, in a neighbourhood of the 2024 spring-forward transition: DST
became active at 2024-03-10 02:00 EST, which is 2024-03-10 16:00 KST, i.e.
instant 19792 * 86400 + 57600 (19792 days separate 1970-01-01 and
2024-03-10).  The definition is accurate for every instant of 2024 before
the November fall-back. -/
def nyDstSpring2024 (t : Nat) : Bool :=
  decide (19792 * 86400 + 57600 ≤ t)

/-- dateOf t: the KST calendar date of instant t, counted as days since
1970-01-01.  The code compares dates as "%Y-%m-%d" strings; string equality
of such stamps coincides with equality of day numbers.  The initial
sentinel last_sent_date_kst = "1970-01-01" is day 0. -/
def dateOf (t : Nat) : Nat := t / 86400

/-- hourOf t: the `.hour` field of the KST instant. -/
def hourOf (t : Nat) : Nat := t % 86400 / 3600

/-- weekdayOf t: Python `datetime.weekday()` (Monday = 0 .. Sunday = 6);
1970-01-01 was a Thursday, weekday 3. -/
def weekdayOf (t : Nat) : Nat := (dateOf t + 3) % 7

/-- civilDayOfMonth days: the day-of-month (1..31) of the Gregorian date
`days` days after 1970-01-01, by the standard civil-from-days
construction. -/
def civilDayOfMonth (days : Nat) : Nat :=
  let z := days + 719468
  let era := z / 146097
  let doe := z - era * 146097
  let yoe := (doe - doe / 1460 + doe / 36524 - doe / 146096) / 365
  let doy := doe - (365 * yoe + yoe / 4 - yoe / 100)
  let mp := (5 * doy + 2) / 153
  doy - (153 * mp + 2) / 5 + 1

/-- dayOfMonthOf t: the `.day` field (day-of-month, 1..31) of the KST
instant; the catch-up branch of the loop compares this field, not the
full date. -/
def dayOfMonthOf (t : Nat) : Nat := civilDayOfMonth (dateOf t)

/-- LoopState: the monitor loop's scheduling state:
status['last_sent_date_kst'] as a day number and the loop-local variable
next_target_time_kst as an instant. -/
structure LoopState where
  lastSent : Nat
  nextTarget : Nat
deriving DecidableEq

/-- RunOutcome abstracts one invocation of run_and_send_plot (lines
531-583): `configSkip` = the placeholder-credential guard returned False
before producing anything; `plotFail` = plot_vix_sp500 returned None and
no send was attempted; `sendDone ok doneAt` = send_photo_via_http was
invoked and returned `ok`, and the fresh `datetime.now(KST_TZ)` read at
line 579 after the send is the instant `doneAt`. -/
inductive RunOutcome where
  | configSkip
  | plotFail
  | sendDone (ok : Bool) (doneAt : Nat)
deriving DecidableEq

/-- Tick: one iteration of main_monitor_loop: the instant `now` read at
line 667 and the outcome of run_and_send_plot if it gets invoked. -/
structure Tick where
  now : Nat
  outcome : RunOutcome
deriving DecidableEq

/-- applyRun: the state effect of run_and_send_plot (line 580): on
reported delivery success, last_sent_date_kst is set to the date of the
completion instant; otherwise the state is untouched. -/
def applyRun (st : LoopState) (o : RunOutcome) : LoopState :=
  match o with
  | RunOutcome.sendDone true doneAt => ⟨dateOf doneAt, st.nextTarget⟩
  | _ => st

/-- producerInvokedOf: whether the Report Producer (plot_vix_sp500) ran
during the run_and_send_plot call. -/
def producerInvokedOf (o : RunOutcome) : Bool :=
  match o with
  | RunOutcome.configSkip => false
  | _ => true

/-- deliveryAttemptedOf: whether the Delivery Channel
(send_photo_via_http) was invoked during the run_and_send_plot call. -/
def deliveryAttemptedOf (o : RunOutcome) : Bool :=
  match o with
  | RunOutcome.sendDone _ _ => true
  | _ => false

/-- advanceTarget: `next_target_time_kst = calculate_next_target_time(current_kst)`
(lines 694 and 702); if the calculator raises, the exception is caught at
the tick boundary and the previous value survives. -/
def advanceTarget (dst : Nat → Bool) (cfg : ScheduleConfig) (st : LoopState) (cur : Nat) :
    LoopState :=
  match calculate_next_target_time dst cfg cur with
  | some n => ⟨st.lastSent, n⟩
  | none => st

/-- TickResult: the state after one tick plus which collaborators ran. -/
structure TickResult where
  state : LoopState
  producerInvoked : Bool
  deliveryAttempted : Bool
deriving DecidableEq

/-- tickStep: the body of main_monitor_loop's while-loop (lines 666-704):
the trigger branch (window test `next_target <= now < next_target + 1min`,
not-yet-sent guard on the target's date, Sunday/Monday exclusion,
run_and_send_plot, then advance), the catch-up branch (day-of-month
difference and `hour > BASE_TARGET_HOUR_KST + 1`, then advance), else a
no-op tick. -/
def tickStep (dst : Nat → Bool) (cfg : ScheduleConfig) (st : LoopState) (tk : Tick) :
    TickResult :=
  if st.nextTarget ≤ tk.now ∧ tk.now < st.nextTarget + 60 ∧
      dateOf st.nextTarget ≠ st.lastSent then
    if weekdayOf tk.now = 0 ∨ weekdayOf tk.now = 6 then
      ⟨advanceTarget dst cfg st tk.now, false, false⟩
    else
      ⟨advanceTarget dst cfg (applyRun st tk.outcome) tk.now,
        producerInvokedOf tk.outcome, deliveryAttemptedOf tk.outcome⟩
  else if dayOfMonthOf tk.now ≠ dayOfMonthOf st.nextTarget ∧
      (hourOf tk.now : Int) > cfg.baseHour + 1 then
    ⟨advanceTarget dst cfg st tk.now, false, false⟩
  else
    ⟨st, false, false⟩

/-- runTicks: the loop state after a sequence of ticks. -/
def runTicks (dst : Nat → Bool) (cfg : ScheduleConfig) : LoopState → List Tick → LoopState
  | st, [] => st
  | st, tk :: r => runTicks dst cfg (tickStep dst cfg st tk).state r

/-- anyDelivery: whether any tick of the sequence invoked the Delivery
Channel. -/
def anyDelivery (dst : Nat → Bool) (cfg : ScheduleConfig) : LoopState → List Tick → Bool
  | _, [] => false
  | st, tk :: r =>
    (tickStep dst cfg st tk).deliveryAttempted ||
      anyDelivery dst cfg (tickStep dst cfg st tk).state r

/-- tickEndTime: the instant at which the tick's work completes (the
fresh clock read of line 579 when run_and_send_plot reached the send, the
tick's own instant otherwise). -/
def tickEndTime (tk : Tick) : Nat :=
  match tk.outcome with
  | RunOutcome.sendDone _ d => d
  | _ => tk.now

/-- ticksOrdered l ticks: real-time ordering of a tick sequence — each
tick starts no earlier than the bound `l`, completes no earlier than it
starts, and the next tick starts only after the previous completes (the
loop is sequential: a tick finishes, including its awaited send, before
the next sleep begins). -/
def ticksOrdered : Nat → List Tick → Prop
  | _, [] => True
  | l, tk :: r => l ≤ tk.now ∧ tk.now ≤ tickEndTime tk ∧ ticksOrdered (tickEndTime tk) r

/-- PlotOutcome: the possible outcomes of one attempt of
`_sync_fetch_and_plot_data` as dispatched by plot_vix_sp500 (lines
453-487): a truthy result tuple (`ok`), an exception or a None result
(`fail`, handled by the generic `except` branch), or an
`asyncio.TimeoutError` from `asyncio.wait_for` (`timeout`).  The artifact
payload is opaque to the scheduling layer and is collapsed. -/
inductive PlotOutcome where
  | ok
  | fail
  | timeout
deriving DecidableEq

/-- PlotRun: observable behaviour of one plot_vix_sp500 call: whether a
result was returned (vs None), how many attempts ran, and the backoff
sleeps performed between attempts, in order, in seconds. -/
structure PlotRun where
  result : Bool
  invocations : Nat
  delays : List Nat
deriving DecidableEq

/-- plotLoopAux attempt outs: the retry loop of plot_vix_sp500 with
attempt counter `attempt` and the outcomes of the remaining attempts:
success returns at once; on the last attempt any failure returns None
without sleeping; a generic failure sleeps `5 ** attempt` seconds before
the next attempt; a timeout proceeds to the next attempt directly (the
`asyncio.TimeoutError` branch performs no sleep). -/
def plotLoopAux (attempt : Nat) : List PlotOutcome → PlotRun
  | [] => ⟨false, 0, []⟩
  | o :: rest =>
    if o = PlotOutcome.ok then ⟨true, 1, []⟩
    else if rest.isEmpty then ⟨false, 1, []⟩
    else if o = PlotOutcome.timeout then
      let r := plotLoopAux (attempt + 1) rest
      ⟨r.result, r.invocations + 1, r.delays⟩
    else
      let r := plotLoopAux (attempt + 1) rest
      ⟨r.result, r.invocations + 1, 5 ^ attempt :: r.delays⟩

/-- plot_vix_sp500 (lines 439-489): `max_retry = 4` attempts, numbered
from 1 (so the backoff sleeps are 5, 25, 125 seconds). -/
def plot_vix_sp500 (o1 o2 o3 o4 : PlotOutcome) : PlotRun :=
  plotLoopAux 1 [o1, o2, o3, o4]

/-- SendOutcome: the outcome of one attempt of send_photo_via_http (lines
509-526): a 2xx response with `ok: true` (`ok`), a network/client error
(`netError`), a non-success HTTP status from raise_for_status
(`badStatus`), or a response whose body carries `ok: false` — the
Telegram API's definitive application-level rejection (`apiReject`). -/
inductive SendOutcome where
  | ok
  | netError
  | badStatus
  | apiReject
deriving DecidableEq

/-- SendRun: observable behaviour of one send_photo_via_http call. -/
structure SendRun where
  result : Bool
  invocations : Nat
  delays : List Nat
deriving DecidableEq

/-- sendLoopAux attempt outs: the retry loop `for attempt in range(3)` of
send_photo_via_http: success returns True at once; every failure kind is
caught by the same `except` and, unless this was the last attempt, is
followed by a `2 ** attempt` second sleep (1 s, 2 s) and a retry; after
the loop the function returns False. -/
def sendLoopAux (attempt : Nat) : List SendOutcome → SendRun
  | [] => ⟨false, 0, []⟩
  | o :: rest =>
    if o = SendOutcome.ok then ⟨true, 1, []⟩
    else if rest.isEmpty then ⟨false, 1, []⟩
    else
      let r := sendLoopAux (attempt + 1) rest
      ⟨r.result, r.invocations + 1, 2 ^ attempt :: r.delays⟩

/-- send_photo_via_http (lines 494-529): exactly three attempts, numbered
from 0. -/
def send_photo_via_http (o1 o2 o3 : SendOutcome) : SendRun :=
  sendLoopAux 0 [o1, o2, o3]

/-- Credentials: the Telegram bot token and chat id. -/
structure Credentials where
  botToken : String
  chatId : String
deriving DecidableEq

/-- Modelled from the spec: the assignment of TELEGRAM_BOT_TOKEN and
TELEGRAM_TARGET_CHAT_ID from the environment is absent from the source
file (only the checks at lines 311, 535, 813-815 remain); per the spec,
credentials are environment-provided and missing variables leave the
placeholder defaults that those checks test for. -/
def loadCredentials (env : String → Option String) : Credentials :=
  ⟨(env "TELEGRAM_BOT_TOKEN").getD "YOUR_BOT_TOKEN_HERE",
    (env "TELEGRAM_TARGET_CHAT_ID").getD "-1000000000"⟩

/-- credentialsArePlaceholder: the placeholder test used identically at
startup (line 311) and at send time (line 535):
`'YOUR_BOT_TOKEN_HERE' in TELEGRAM_BOT_TOKEN or TELEGRAM_TARGET_CHAT_ID
== '-1000000000'` (substring containment on the token, string equality on
the chat id). -/
def credentialsArePlaceholder (c : Credentials) : Bool :=
  decide ("YOUR_BOT_TOKEN_HERE".toList <:+: c.botToken.toList) || c.chatId == "-1000000000"

/-- startupCheck (lines 310-312): module initialisation logs a warning —
and does nothing else, in particular does not abort — exactly when the
credentials are placeholders.  The returned Bool is "a warning was
logged"; totality of this function models that startup succeeds either
way. -/
def startupCheck (c : Credentials) : Bool :=
  credentialsArePlaceholder c

/-- runAndSendOutcome: the guard structure of run_and_send_plot (lines
531-583) at the granularity of C9: first conjunct of the result is the
returned Bool, second is whether a send was performed.  If the
credentials are placeholders the function logs an error and returns False
before invoking the producer; otherwise a failed plot yields False with
no send; otherwise the send's final Bool is returned. -/
def runAndSendOutcome (c : Credentials) (plotOk : Bool) (sendOk : Bool) : Bool × Bool :=
  if credentialsArePlaceholder c then (false, false)
  else if !plotOk then (false, false)
  else (sendOk, true)

/-- GoldMetrics: the triple (KRX gold price, international gold price,
gold premium) produced by GoldKimpAnalyzer (values opaque to the
scheduling layer; Python floats are not re-modelled because no claim
depends on their arithmetic). -/
structure GoldMetrics where
  krx : Int
  intl : Int
  premium : Int
deriving DecidableEq

/-- get_core_metrics (lines 159-169): the fetched-and-computed metrics,
or the (0, 0, 0) default when fetching or computation failed. -/
def get_core_metrics (fetched : Option GoldMetrics) : GoldMetrics :=
  fetched.getD ⟨0, 0, 0⟩

/-- GoldModuleState: the module-level binding
`Goldresult = GoldKimpAnalyzer().get_core_metrics()` (line 170), executed
exactly once at import time; `goldFetchCount` records how many times the
gold API was consulted during initialisation. -/
structure GoldModuleState where
  goldresult : GoldMetrics
  goldFetchCount : Nat
deriving DecidableEq

/-- goldModuleInit: module import evaluates line 170 once. -/
def goldModuleInit (goldApi : Option GoldMetrics) : GoldModuleState :=
  ⟨get_core_metrics goldApi, 1⟩

/-- CycleData: the per-cycle caption inputs that run_and_send_plot
re-fetches on every invocation: `fetcher.fetch_all()` (line 549) and
`get_usdt_and_exchange_rate()` (line 550), collapsed to opaque values. -/
structure CycleData where
  fearGreed : Int
  usdt : Int
deriving DecidableEq

/-- CaptionData: the caption assembled at lines 553-573, restricted to
the fields the claims distinguish, plus a flag recording whether this
cycle consulted the gold API (the caption reads the module-level
Goldresult at line 551 instead). -/
structure CaptionData where
  gold : GoldMetrics
  fearGreed : Int
  usdt : Int
  goldFetchedThisCycle : Bool
deriving DecidableEq

/-- cycleCaption: one run_and_send_plot caption assembly: fear/greed and
USDT data come from this cycle's fetches, the gold triple is read from
the module state unchanged, and no gold fetch happens. -/
def cycleCaption (ms : GoldModuleState) (cd : CycleData) : CaptionData :=
  ⟨ms.goldresult, cd.fearGreed, cd.usdt, false⟩

/-- processCaptions: a whole process lifetime: one module initialisation,
then one caption per cycle; returns every caption plus the total number
of gold-API consultations. -/
def processCaptions (goldApi : Option GoldMetrics) (cycles : List CycleData) :
    List CaptionData × Nat :=
  ((cycles.map (cycleCaption (goldModuleInit goldApi))),
    (goldModuleInit goldApi).goldFetchCount)

-- ## Theorems

/-- Auxiliary: a successful dtReplace yields mkTarget plus in-range
bounds on the hour and minute. -/
theorem dtReplace_eq_some {t : Nat} {h m : Int} {n : Nat}
    (he : dtReplace t h m = some n) :
    n = mkTarget t h m ∧ 0 ≤ h ∧ h ≤ 23 ∧ 0 ≤ m ∧ m ≤ 59 := by
  unfold dtReplace at he
  by_cases hc : 0 ≤ h ∧ h ≤ 23 ∧ 0 ≤ m ∧ m ≤ 59
  · rw [if_pos hc] at he
    exact ⟨(Option.some.injEq _ _ ▸ he).symm, hc.1, hc.2.1, hc.2.2.1, hc.2.2.2⟩
  · rw [if_neg hc] at he
    exact absurd he (by simp)

/-- Auxiliary: the effective hour is within replace's accepted range as
soon as the configured base hour is in 1..23. -/
theorem eff_hour_bounds (dst : Nat → Bool) (cfg : ScheduleConfig) (t : Nat)
    (h1 : 1 ≤ cfg.baseHour) (h2 : cfg.baseHour ≤ 23) :
    0 ≤ get_target_hour_for_kst_date dst cfg t ∧
      get_target_hour_for_kst_date dst cfg t ≤ 23 := by
  unfold get_target_hour_for_kst_date
  by_cases hd : dst t
  · rw [if_pos hd]; omega
  · rw [if_neg hd]; omega

/-- Auxiliary: dtReplace succeeds on an in-range hour and minute. -/
theorem dtReplace_valid {h m : Int} (t : Nat)
    (h0 : 0 ≤ h) (h23 : h ≤ 23) (m0 : 0 ≤ m) (m59 : m ≤ 59) :
    dtReplace t h m = some (mkTarget t h m) := by
  unfold dtReplace
  rw [if_pos ⟨h0, h23, m0, m59⟩]

/-- Auxiliary: closed form of the calculator for a valid configuration. -/
theorem calc_valid (dst : Nat → Bool) (cfg : ScheduleConfig) (now : Nat)
    (h1 : 1 ≤ cfg.baseHour) (h2 : cfg.baseHour ≤ 23)
    (h3 : 0 ≤ cfg.baseMinute) (h4 : cfg.baseMinute ≤ 59) :
    calculate_next_target_time dst cfg now =
      if mkTarget now (get_target_hour_for_kst_date dst cfg now) cfg.baseMinute ≤ now then
        some (mkTarget (now + 86400)
          (get_target_hour_for_kst_date dst cfg (now + 86400)) cfg.baseMinute)
      else
        some (mkTarget now (get_target_hour_for_kst_date dst cfg now) cfg.baseMinute) := by
  obtain ⟨ha, hb⟩ := eff_hour_bounds dst cfg now h1 h2
  obtain ⟨ha', hb'⟩ := eff_hour_bounds dst cfg (now + 86400) h1 h2
  unfold calculate_next_target_time
  rw [dtReplace_valid now ha hb h3 h4]
  dsimp only
  by_cases hc :
      mkTarget now (get_target_hour_for_kst_date dst cfg now) cfg.baseMinute ≤ now
  · rw [if_pos hc, if_pos hc, dtReplace_valid (now + 86400) ha' hb' h3 h4]
  · rw [if_neg hc, if_neg hc]

/-- C1: for every instant `now` and a configured base hour in 1..23 and
minute in 0..59 (so that the DST-corrected hour names an existing wall
clock time), `calculate_next_target_time` returns today's instant at
(effective hour, configured minute, second 0) when `now` is strictly
before it, and otherwise returns tomorrow's instant at tomorrow's
effective hour — recomputed for `now + 1 day`, not reused from today —
and the configured minute; the returned tomorrow instant indeed falls on
the next calendar date. -/
theorem C1_target_calculator (dst : Nat → Bool) (cfg : ScheduleConfig) (now : Nat)
    (h1 : 1 ≤ cfg.baseHour) (h2 : cfg.baseHour ≤ 23)
    (h3 : 0 ≤ cfg.baseMinute) (h4 : cfg.baseMinute ≤ 59) :
    (now < mkTarget now (get_target_hour_for_kst_date dst cfg now) cfg.baseMinute →
      calculate_next_target_time dst cfg now =
        some (mkTarget now (get_target_hour_for_kst_date dst cfg now) cfg.baseMinute)) ∧
    (mkTarget now (get_target_hour_for_kst_date dst cfg now) cfg.baseMinute ≤ now →
      calculate_next_target_time dst cfg now =
        some (mkTarget (now + 86400)
          (get_target_hour_for_kst_date dst cfg (now + 86400)) cfg.baseMinute)) ∧
    (mkTarget (now + 86400) (get_target_hour_for_kst_date dst cfg (now + 86400))
        cfg.baseMinute) / 86400 = now / 86400 + 1 := by
  rw [calc_valid dst cfg now h1 h2 h3 h4]
  obtain ⟨ha', hb'⟩ := eff_hour_bounds dst cfg (now + 86400) h1 h2
  refine ⟨fun hlt => ?_, fun hge => ?_, ?_⟩
  · rw [if_neg (by omega)]
  · rw [if_pos hge]
  · unfold mkTarget
    have hh : (get_target_hour_for_kst_date dst cfg (now + 86400)).toNat ≤ 23 := by omega
    have hm : cfg.baseMinute.toNat ≤ 59 := by omega
    omega

/-- C1 witness: base config 6:20, no DST, `now` = 00:30 on day 0; the
result is day 0 at 06:20:00 = instant 22800. -/
theorem C1_witness :
    calculate_next_target_time (fun _ => false) ⟨6, 20⟩ 1800 = some 22800 := by
  have h := (C1_target_calculator (fun _ => false) ⟨6, 20⟩ 1800
    (by decide) (by decide) (by decide) (by decide)).1 (by decide)
  rw [h]
  decide

/-- Auxiliary: any result of the calculator lies strictly in the future
(both the today branch, by its guard, and the tomorrow branch, which lands
on the next calendar day). -/
theorem calc_now_lt (dst : Nat → Bool) (cfg : ScheduleConfig) (now n : Nat)
    (h : calculate_next_target_time dst cfg now = some n) : now < n := by
  unfold calculate_next_target_time at h
  rcases hd : dtReplace now (get_target_hour_for_kst_date dst cfg now) cfg.baseMinute
      with _ | t
  · rw [hd] at h; exact absurd h (by simp)
  · rw [hd] at h
    dsimp only at h
    by_cases hc : t ≤ now
    · rw [if_pos hc] at h
      obtain ⟨hn, -, -, -, -⟩ := dtReplace_eq_some h
      subst hn
      unfold mkTarget
      omega
    · rw [if_neg hc] at h
      have ht : t = n := by injection h
      omega

/-- Auxiliary: when the DST indicator is a constant function, the
calculator is monotone in `now`. -/
theorem calc_mono_const (dst : Nat → Bool) (cfg : ScheduleConfig) (b : Bool)
    (hb : ∀ t, dst t = b) {now1 now2 r1 r2 : Nat} (h12 : now1 ≤ now2)
    (e1 : calculate_next_target_time dst cfg now1 = some r1)
    (e2 : calculate_next_target_time dst cfg now2 = some r2) : r1 ≤ r2 := by
  have hH : ∀ t, get_target_hour_for_kst_date dst cfg t =
      get_target_hour_for_kst_date dst cfg 0 := by
    intro t
    unfold get_target_hour_for_kst_date
    rw [hb t, hb 0]
  unfold calculate_next_target_time at e1 e2
  rw [hH now1, hH (now1 + 86400)] at e1
  rw [hH now2, hH (now2 + 86400)] at e2
  set G := get_target_hour_for_kst_date dst cfg 0 with hG
  rcases hd1 : dtReplace now1 G cfg.baseMinute with _ | t1
  · rw [hd1] at e1; exact absurd e1 (by simp)
  rcases hd2 : dtReplace now2 G cfg.baseMinute with _ | t2
  · rw [hd2] at e2; exact absurd e2 (by simp)
  rw [hd1] at e1
  rw [hd2] at e2
  dsimp only at e1 e2
  obtain ⟨ht1, hG0, hG23, hm0, hm59⟩ := dtReplace_eq_some hd1
  obtain ⟨ht2, -, -, -, -⟩ := dtReplace_eq_some hd2
  have hGn : G.toNat ≤ 23 := by omega
  have hmn : cfg.baseMinute.toNat ≤ 59 := by omega
  subst ht1
  subst ht2
  by_cases c1 : mkTarget now1 G cfg.baseMinute ≤ now1
  · rw [if_pos c1] at e1
    obtain ⟨hr1, -, -, -, -⟩ := dtReplace_eq_some e1
    by_cases c2 : mkTarget now2 G cfg.baseMinute ≤ now2
    · rw [if_pos c2] at e2
      obtain ⟨hr2, -, -, -, -⟩ := dtReplace_eq_some e2
      subst hr1
      subst hr2
      unfold mkTarget at c1 c2 ⊢
      omega
    · rw [if_neg c2] at e2
      have hr2 : mkTarget now2 G cfg.baseMinute = r2 := by injection e2
      subst hr1
      rw [← hr2]
      unfold mkTarget at c1 c2 ⊢
      omega
  · rw [if_neg c1] at e1
    have hr1 : mkTarget now1 G cfg.baseMinute = r1 := by injection e1
    by_cases c2 : mkTarget now2 G cfg.baseMinute ≤ now2
    · rw [if_pos c2] at e2
      obtain ⟨hr2, -, -, -, -⟩ := dtReplace_eq_some e2
      subst hr2
      rw [← hr1]
      unfold mkTarget at c1 c2 ⊢
      omega
    · rw [if_neg c2] at e2
      have hr2 : mkTarget now2 G cfg.baseMinute = r2 := by injection e2
      rw [← hr1, ← hr2]
      unfold mkTarget at c1 c2 ⊢
      omega

/-- C2 counterexample: with the real New York spring-forward of 2024
(DST activates at 2024-03-10 16:00 KST, instant 19792 * 86400 + 57600)
and a configured base time of 18:00, the calculator is NOT monotone:
now1 = 15:59 (before the transition, effective hour 18) yields today
18:00, while now2 = 16:30 (after the transition, effective hour 17)
yields today 17:00, an earlier instant, although now1 ≤ now2. -/
theorem C2_counterexample :
    (19792 * 86400 + 57540 : Nat) ≤ 19792 * 86400 + 59400 ∧
    calculate_next_target_time nyDstSpring2024 ⟨18, 0⟩ (19792 * 86400 + 57540) =
      some (19792 * 86400 + 64800) ∧
    calculate_next_target_time nyDstSpring2024 ⟨18, 0⟩ (19792 * 86400 + 59400) =
      some (19792 * 86400 + 61200) ∧
    ¬ (19792 * 86400 + 64800 : Nat) ≤ 19792 * 86400 + 61200 := by
  decide

/-- C2 (amended): for every input instant the calculator's result is
strictly greater than `now`; the function is pure, so calling it twice
with the same arguments returns the same result (definitionally); and the
result is monotone in `now` whenever the New York DST indicator is
constant over the instants involved (in particular on any day without a
DST transition) — at a spring-forward transition combined with a late
enough configured base hour, monotonicity can fail (see the
counterexample). -/
theorem C2_amended (dst : Nat → Bool) (cfg : ScheduleConfig) :
    (∀ now n, calculate_next_target_time dst cfg now = some n → now < n) ∧
    calculate_next_target_time dst cfg = calculate_next_target_time dst cfg ∧
    (∀ b, (∀ t, dst t = b) → ∀ now1 now2 r1 r2, now1 ≤ now2 →
      calculate_next_target_time dst cfg now1 = some r1 →
      calculate_next_target_time dst cfg now2 = some r2 → r1 ≤ r2) :=
  ⟨fun now n h => calc_now_lt dst cfg now n h, rfl,
   fun b hb _ _ _ _ h12 e1 e2 => calc_mono_const dst cfg b hb h12 e1 e2⟩

/-- C2 witness: at the default 6:20 configuration with DST inactive,
6:20 today (instant 22800) is strictly after now = 00:30 (instant 1800),
and monotonicity applies at equal inputs. -/
theorem C2_witness : (1800 : Nat) < 22800 ∧ (22800 : Nat) ≤ 22800 := by
  have h := C2_amended (fun _ => false) ⟨6, 20⟩
  refine ⟨h.1 1800 22800 (by decide), ?_⟩
  exact h.2.2 false (fun _ => rfl) 1800 1800 22800 22800 (by omega) (by decide) (by decide)

/-- Auxiliary: every instant the calculator produces has second 0 (it is
built by replace(..., second=0, microsecond=0)), so in particular it is a
multiple of 60. -/
theorem calc_some_mod60 (dst : Nat → Bool) (cfg : ScheduleConfig) (now n : Nat)
    (h : calculate_next_target_time dst cfg now = some n) : n % 60 = 0 := by
  unfold calculate_next_target_time at h
  rcases hd : dtReplace now (get_target_hour_for_kst_date dst cfg now) cfg.baseMinute
      with _ | t
  · rw [hd] at h; exact absurd h (by simp)
  · rw [hd] at h
    dsimp only at h
    by_cases hc : t ≤ now
    · rw [if_pos hc] at h
      obtain ⟨hn, -, -, -, -⟩ := dtReplace_eq_some h
      subst hn
      unfold mkTarget
      omega
    · rw [if_neg hc] at h
      have ht : t = n := by injection h
      obtain ⟨hT, -, -, -, -⟩ := dtReplace_eq_some hd
      rw [← ht, hT]
      unfold mkTarget
      omega

/-- Auxiliary: advancing the schedule never touches last_sent. -/
theorem advance_lastSent (dst : Nat → Bool) (cfg : ScheduleConfig) (st : LoopState)
    (cur : Nat) : (advanceTarget dst cfg st cur).lastSent = st.lastSent := by
  unfold advanceTarget
  split <;> rfl

/-- Auxiliary: advancing the schedule preserves the second-0 shape of
next_target. -/
theorem advance_mod60 (dst : Nat → Bool) (cfg : ScheduleConfig) (st : LoopState)
    (cur : Nat) (h : st.nextTarget % 60 = 0) :
    (advanceTarget dst cfg st cur).nextTarget % 60 = 0 := by
  unfold advanceTarget
  split
  · rename_i n heq
    exact calc_some_mod60 dst cfg cur n heq
  · exact h

/-- Auxiliary: applyRun never touches next_target. -/
theorem applyRun_nextTarget (st : LoopState) (o : RunOutcome) :
    (applyRun st o).nextTarget = st.nextTarget := by
  unfold applyRun
  split <;> rfl

/-- Auxiliary: applyRun either leaves last_sent alone or, exactly on a
successful send, stamps it with the date of the completion instant. -/
theorem applyRun_lastSent (st : LoopState) (o : RunOutcome) :
    (applyRun st o).lastSent = st.lastSent ∨
      ∃ d, o = RunOutcome.sendDone true d ∧ (applyRun st o).lastSent = dateOf d := by
  rcases o with _ | _ | ⟨ok, d⟩
  · left; rfl
  · left; rfl
  · cases ok
    · left; rfl
    · right; exact ⟨d, rfl, rfl⟩

/-- Auxiliary: applyRun with a non-success outcome is the identity on
last_sent. -/
theorem applyRun_nosuccess (st : LoopState) (o : RunOutcome)
    (h : ∀ d, o ≠ RunOutcome.sendDone true d) : (applyRun st o).lastSent = st.lastSent := by
  rcases o with _ | _ | ⟨ok, d⟩
  · rfl
  · rfl
  · cases ok
    · rfl
    · exact absurd rfl (h d)

/-- Auxiliary: a tick instant inside the one-minute trigger window shares
the target's calendar date, because the stored target always has second
0. -/
theorem window_same_date {T x : Nat} (h60 : T % 60 = 0) (hl : T ≤ x) (hr : x < T + 60) :
    dateOf x = dateOf T := by
  unfold dateOf
  omega

/-- Auxiliary: taking the date is monotone. -/
theorem dateOf_mono {a b : Nat} (h : a ≤ b) : dateOf a ≤ dateOf b := by
  unfold dateOf
  omega

/-- Auxiliary: a tick whose instant falls on the already-sent date makes
no delivery attempt, does not invoke the producer, and leaves last_sent
unchanged (the not-yet-sent guard forces the trigger branch off, because
an in-window instant shares the stored target's date). -/
theorem tickStep_blocked (dst : Nat → Bool) (cfg : ScheduleConfig) (st : LoopState)
    (tk : Tick) (h60 : st.nextTarget % 60 = 0) (hdate : dateOf tk.now = st.lastSent) :
    (tickStep dst cfg st tk).deliveryAttempted = false ∧
    (tickStep dst cfg st tk).state.lastSent = st.lastSent ∧
    (tickStep dst cfg st tk).state.nextTarget % 60 = 0 ∧
    (tickStep dst cfg st tk).producerInvoked = false := by
  unfold tickStep
  by_cases c1 : st.nextTarget ≤ tk.now ∧ tk.now < st.nextTarget + 60 ∧
      dateOf st.nextTarget ≠ st.lastSent
  · exfalso
    have hsame : dateOf tk.now = dateOf st.nextTarget :=
      window_same_date h60 c1.1 c1.2.1
    exact c1.2.2 (by rw [← hsame, hdate])
  · rw [if_neg c1]
    by_cases c2 : dayOfMonthOf tk.now ≠ dayOfMonthOf st.nextTarget ∧
        (hourOf tk.now : Int) > cfg.baseHour + 1
    · rw [if_pos c2]
      exact ⟨rfl, advance_lastSent dst cfg st tk.now, advance_mod60 dst cfg st tk.now h60, rfl⟩
    · rw [if_neg c2]
      exact ⟨rfl, rfl, h60, rfl⟩

/-- Auxiliary: tickStep preserves the second-0 shape of next_target. -/
theorem tickStep_mod60 (dst : Nat → Bool) (cfg : ScheduleConfig) (st : LoopState)
    (tk : Tick) (h60 : st.nextTarget % 60 = 0) :
    (tickStep dst cfg st tk).state.nextTarget % 60 = 0 := by
  unfold tickStep
  by_cases c1 : st.nextTarget ≤ tk.now ∧ tk.now < st.nextTarget + 60 ∧
      dateOf st.nextTarget ≠ st.lastSent
  · rw [if_pos c1]
    by_cases wk : weekdayOf tk.now = 0 ∨ weekdayOf tk.now = 6
    · rw [if_pos wk]
      exact advance_mod60 dst cfg st tk.now h60
    · rw [if_neg wk]
      dsimp only
      have hpre : (applyRun st tk.outcome).nextTarget % 60 = 0 := by
        rw [applyRun_nextTarget]; exact h60
      exact advance_mod60 dst cfg (applyRun st tk.outcome) tk.now hpre
  · rw [if_neg c1]
    by_cases c2 : dayOfMonthOf tk.now ≠ dayOfMonthOf st.nextTarget ∧
        (hourOf tk.now : Int) > cfg.baseHour + 1
    · rw [if_pos c2]
      exact advance_mod60 dst cfg st tk.now h60
    · rw [if_neg c2]
      exact h60

/-- Auxiliary: if a tick changes last_sent, then that tick invoked the
Delivery Channel on a non-excluded weekday inside the trigger window with
the not-yet-sent guard passing, the send was reported successful, and the
new value is the date of the completion instant. -/
theorem tickStep_change (dst : Nat → Bool) (cfg : ScheduleConfig) (st : LoopState)
    (tk : Tick) (h : (tickStep dst cfg st tk).state.lastSent ≠ st.lastSent) :
    (tickStep dst cfg st tk).deliveryAttempted = true ∧
    ∃ d, tk.outcome = RunOutcome.sendDone true d ∧
      (tickStep dst cfg st tk).state.lastSent = dateOf d ∧
      st.nextTarget ≤ tk.now ∧ tk.now < st.nextTarget + 60 ∧
      dateOf st.nextTarget ≠ st.lastSent ∧
      ¬(weekdayOf tk.now = 0 ∨ weekdayOf tk.now = 6) := by
  unfold tickStep at h ⊢
  by_cases c1 : st.nextTarget ≤ tk.now ∧ tk.now < st.nextTarget + 60 ∧
      dateOf st.nextTarget ≠ st.lastSent
  · rw [if_pos c1] at h ⊢
    by_cases wk : weekdayOf tk.now = 0 ∨ weekdayOf tk.now = 6
    · rw [if_pos wk] at h ⊢
      dsimp only at h
      exact absurd (advance_lastSent dst cfg st tk.now) h
    · rw [if_neg wk] at h ⊢
      dsimp only at h ⊢
      rw [advance_lastSent] at h ⊢
      rcases applyRun_lastSent st tk.outcome with he | ⟨d, ho, hd⟩
      · exact absurd he h
      · refine ⟨by rw [ho]; rfl, d, ho, hd, c1.1, c1.2.1, c1.2.2, wk⟩
  · rw [if_neg c1] at h
    by_cases c2 : dayOfMonthOf tk.now ≠ dayOfMonthOf st.nextTarget ∧
        (hourOf tk.now : Int) > cfg.baseHour + 1
    · rw [if_pos c2] at h
      dsimp only at h
      exact absurd (advance_lastSent dst cfg st tk.now) h
    · rw [if_neg c2] at h
      exact absurd rfl h

/-- Auxiliary: a successful send on a triggering, non-excluded tick
stamps last_sent with the completion date and reports both collaborators
invoked. -/
theorem tickStep_success (dst : Nat → Bool) (cfg : ScheduleConfig) (st : LoopState)
    (tk : Tick) (d : Nat)
    (c1 : st.nextTarget ≤ tk.now) (c2 : tk.now < st.nextTarget + 60)
    (c3 : dateOf st.nextTarget ≠ st.lastSent)
    (wk : ¬(weekdayOf tk.now = 0 ∨ weekdayOf tk.now = 6))
    (ho : tk.outcome = RunOutcome.sendDone true d) :
    (tickStep dst cfg st tk).state.lastSent = dateOf d ∧
    (tickStep dst cfg st tk).deliveryAttempted = true ∧
    (tickStep dst cfg st tk).producerInvoked = true := by
  unfold tickStep
  rw [if_pos ⟨c1, c2, c3⟩, if_neg wk]
  dsimp only
  rw [advance_lastSent, ho]
  exact ⟨rfl, rfl, rfl⟩

/-- Auxiliary: without a successful send the tick leaves last_sent
unchanged. -/
theorem tickStep_nosuccess (dst : Nat → Bool) (cfg : ScheduleConfig) (st : LoopState)
    (tk : Tick) (h : ∀ d, tk.outcome ≠ RunOutcome.sendDone true d) :
    (tickStep dst cfg st tk).state.lastSent = st.lastSent := by
  by_contra hne
  obtain ⟨-, d, ho, -⟩ := tickStep_change dst cfg st tk hne
  exact h d ho

/-- Auxiliary: under the real-time invariant (last_sent never in the
future), one tick either leaves last_sent unchanged or strictly increases
it, and afterwards last_sent is at most the date of the tick's completion
instant. -/
theorem tickStep_mono (dst : Nat → Bool) (cfg : ScheduleConfig) (st : LoopState)
    (tk : Tick) (h60 : st.nextTarget % 60 = 0)
    (hls : st.lastSent ≤ dateOf tk.now) (hde : tk.now ≤ tickEndTime tk) :
    (st.lastSent = (tickStep dst cfg st tk).state.lastSent ∨
      st.lastSent < (tickStep dst cfg st tk).state.lastSent) ∧
    (tickStep dst cfg st tk).state.lastSent ≤ dateOf (tickEndTime tk) := by
  by_cases hch : (tickStep dst cfg st tk).state.lastSent = st.lastSent
  · rw [hch]
    exact ⟨Or.inl rfl, le_trans hls (dateOf_mono hde)⟩
  · obtain ⟨-, d, ho, hd, hw1, hw2, hw3, -⟩ := tickStep_change dst cfg st tk hch
    have hdate : dateOf tk.now = dateOf st.nextTarget := window_same_date h60 hw1 hw2
    have hend : tickEndTime tk = d := by unfold tickEndTime; rw [ho]
    have h1 : dateOf tk.now ≤ dateOf d := dateOf_mono (hend ▸ hde)
    rw [hd, hend]
    have h2 : st.lastSent < dateOf tk.now := by omega
    exact ⟨Or.inr (lt_of_lt_of_le h2 h1), le_refl _⟩

/-- Auxiliary: over a whole tick sequence on the already-sent date, no
delivery is attempted and last_sent stays put. -/
theorem runTicks_blocked (dst : Nat → Bool) (cfg : ScheduleConfig) (D : Nat) :
    ∀ (ticks : List Tick) (st : LoopState),
    st.nextTarget % 60 = 0 → st.lastSent = D → (∀ tk ∈ ticks, dateOf tk.now = D) →
    anyDelivery dst cfg st ticks = false ∧ (runTicks dst cfg st ticks).lastSent = D := by
  intro ticks
  induction ticks with
  | nil =>
    intro st h60 hls hall
    exact ⟨rfl, hls⟩
  | cons tk r ih =>
    intro st h60 hls hall
    have hdate : dateOf tk.now = st.lastSent := by
      rw [hls]; exact hall tk (by simp)
    obtain ⟨hda, hl, h60', -⟩ := tickStep_blocked dst cfg st tk h60 hdate
    have hr := ih (tickStep dst cfg st tk).state h60' (by rw [hl, hls])
      (fun x hx => hall x (by simp [hx]))
    refine ⟨?_, hr.2⟩
    simp only [anyDelivery, hda, hr.1]
    rfl

/-- Auxiliary: over any real-time-ordered tick sequence, last_sent is
non-decreasing. -/
theorem runTicks_mono (dst : Nat → Bool) (cfg : ScheduleConfig) :
    ∀ (ticks : List Tick) (st : LoopState) (l : Nat),
    st.nextTarget % 60 = 0 → st.lastSent ≤ dateOf l → ticksOrdered l ticks →
    st.lastSent ≤ (runTicks dst cfg st ticks).lastSent := by
  intro ticks
  induction ticks with
  | nil =>
    intro st l h60 hls hord
    exact le_refl _
  | cons tk r ih =>
    intro st l h60 hls hord
    obtain ⟨hl1, hl2, hord'⟩ := hord
    have hlsn : st.lastSent ≤ dateOf tk.now := le_trans hls (dateOf_mono hl1)
    obtain ⟨hstep, hub⟩ := tickStep_mono dst cfg st tk h60 hlsn hl2
    have h60' := tickStep_mod60 dst cfg st tk h60
    have htail := ih (tickStep dst cfg st tk).state (tickEndTime tk) h60' hub hord'
    simp only [runTicks]
    rcases hstep with h | h
    · omega
    · omega

/-- Auxiliary: a valid configuration always yields a next target. -/
theorem calc_valid_some (dst : Nat → Bool) (cfg : ScheduleConfig) (now : Nat)
    (h1 : 1 ≤ cfg.baseHour) (h2 : cfg.baseHour ≤ 23)
    (h3 : 0 ≤ cfg.baseMinute) (h4 : cfg.baseMinute ≤ 59) :
    ∃ n, calculate_next_target_time dst cfg now = some n := by
  rw [calc_valid dst cfg now h1 h2 h3 h4]
  by_cases hb :
      mkTarget now (get_target_hour_for_kst_date dst cfg now) cfg.baseMinute ≤ now
  · rw [if_pos hb]; exact ⟨_, rfl⟩
  · rw [if_neg hb]; exact ⟨_, rfl⟩

/-- C3: the once-per-day delivery guard.  (1) after a success has stamped
last_sent with date D, any sequence of further ticks whose instants all
fall on date D makes no delivery attempt and leaves last_sent at D;
(2) over any real-time-ordered tick sequence starting from a state whose
last_sent is not in the future, last_sent is non-decreasing — it never
moves backward; (3) last_sent changes only on a tick whose Delivery
Channel invocation reported success, and then to the date of the
completion instant; (4) under the same real-time invariant every change
is a strict increase, so no calendar date is ever written twice — at most
one update per calendar date, exactly on a successful delivery
attempt. -/
theorem C3_day_guard (dst : Nat → Bool) (cfg : ScheduleConfig) :
    (∀ (st : LoopState) (D : Nat) (ticks : List Tick),
       st.nextTarget % 60 = 0 → st.lastSent = D →
       (∀ tk ∈ ticks, dateOf tk.now = D) →
       anyDelivery dst cfg st ticks = false ∧ (runTicks dst cfg st ticks).lastSent = D) ∧
    (∀ (st : LoopState) (l : Nat) (ticks : List Tick),
       st.nextTarget % 60 = 0 → st.lastSent ≤ dateOf l → ticksOrdered l ticks →
       st.lastSent ≤ (runTicks dst cfg st ticks).lastSent) ∧
    (∀ (st : LoopState) (tk : Tick),
       (tickStep dst cfg st tk).state.lastSent ≠ st.lastSent →
       (tickStep dst cfg st tk).deliveryAttempted = true ∧
       ∃ d, tk.outcome = RunOutcome.sendDone true d ∧
         (tickStep dst cfg st tk).state.lastSent = dateOf d) ∧
    (∀ (st : LoopState) (tk : Tick),
       st.nextTarget % 60 = 0 → st.lastSent ≤ dateOf tk.now → tk.now ≤ tickEndTime tk →
       (tickStep dst cfg st tk).state.lastSent = st.lastSent ∨
         st.lastSent < (tickStep dst cfg st tk).state.lastSent) := by
  refine ⟨?_, ?_, ?_, ?_⟩
  · intro st D ticks h60 hls hall
    exact runTicks_blocked dst cfg D ticks st h60 hls hall
  · intro st l ticks h60 hls hord
    exact runTicks_mono dst cfg ticks st l h60 hls hord
  · intro st tk h
    obtain ⟨hda, d, ho, hd, -⟩ := tickStep_change dst cfg st tk h
    exact ⟨hda, d, ho, hd⟩
  · intro st tk h60 hls hde
    rcases (tickStep_mono dst cfg st tk h60 hls hde).1 with h | h
    · exact Or.inl h.symm
    · exact Or.inr h

/-- C3 witness: last_sent = day 5, target day 5 at 06:20, one further
tick inside the window on day 5 whose send would have succeeded: no
delivery is attempted and last_sent stays 5. -/
theorem C3_witness :
    anyDelivery (fun _ => false) ⟨6, 20⟩ ⟨5, 5 * 86400 + 22800⟩
      [⟨5 * 86400 + 22800, RunOutcome.sendDone true (5 * 86400 + 22900)⟩] = false ∧
    (runTicks (fun _ => false) ⟨6, 20⟩ ⟨5, 5 * 86400 + 22800⟩
      [⟨5 * 86400 + 22800, RunOutcome.sendDone true (5 * 86400 + 22900)⟩]).lastSent = 5 := by
  exact (C3_day_guard (fun _ => false) ⟨6, 20⟩).1 ⟨5, 5 * 86400 + 22800⟩ 5
    [⟨5 * 86400 + 22800, RunOutcome.sendDone true (5 * 86400 + 22900)⟩]
    (by decide) rfl (by decide)

/-- C4 counterexample: a tick inside the trigger window on an excluded
weekday (Sunday 1970-01-04) at a state whose pending target date equals
last_sent (reachable, e.g., after a midnight-crossing success followed by
a /set-time reconfiguration): nothing is invoked, but next_trigger is NOT
advanced — the guard `target_date_kst != last_sent_date_kst` also gates
the advance, so the claim's unconditional "still advanced" fails. -/
theorem C4_counterexample :
    let st : LoopState := ⟨3, 3 * 86400 + 36000⟩
    let tk : Tick := ⟨3 * 86400 + 36000, RunOutcome.configSkip⟩
    weekdayOf tk.now = 6 ∧
    st.nextTarget ≤ tk.now ∧ tk.now < st.nextTarget + 60 ∧
    (tickStep (fun _ => false) ⟨6, 20⟩ st tk).producerInvoked = false ∧
    (tickStep (fun _ => false) ⟨6, 20⟩ st tk).deliveryAttempted = false ∧
    (tickStep (fun _ => false) ⟨6, 20⟩ st tk).state.nextTarget = st.nextTarget ∧
    (tickStep (fun _ => false) ⟨6, 20⟩ st tk).state.nextTarget ≤ tk.now := by
  decide

/-- C4 (amended): on every tick inside the trigger window whose weekday
is excluded (Sunday or Monday) and whose pending target date differs from
last_sent_date (the not-yet-sent guard), neither the Report Producer nor
the Delivery Channel is invoked, yet next_trigger_instant is advanced to
the following cycle — the calculator's output, a strictly future
instant — with last_sent untouched. -/
theorem C4_weekday_exclusion (dst : Nat → Bool) (cfg : ScheduleConfig) (st : LoopState)
    (tk : Tick)
    (hv1 : 1 ≤ cfg.baseHour) (hv2 : cfg.baseHour ≤ 23)
    (hv3 : 0 ≤ cfg.baseMinute) (hv4 : cfg.baseMinute ≤ 59)
    (c1 : st.nextTarget ≤ tk.now) (c2 : tk.now < st.nextTarget + 60)
    (c3 : dateOf st.nextTarget ≠ st.lastSent)
    (wk : weekdayOf tk.now = 0 ∨ weekdayOf tk.now = 6) :
    (tickStep dst cfg st tk).producerInvoked = false ∧
    (tickStep dst cfg st tk).deliveryAttempted = false ∧
    calculate_next_target_time dst cfg tk.now =
      some (tickStep dst cfg st tk).state.nextTarget ∧
    tk.now < (tickStep dst cfg st tk).state.nextTarget ∧
    (tickStep dst cfg st tk).state.lastSent = st.lastSent := by
  obtain ⟨n, hc⟩ := calc_valid_some dst cfg tk.now hv1 hv2 hv3 hv4
  unfold tickStep
  rw [if_pos ⟨c1, c2, c3⟩, if_pos wk]
  dsimp only
  unfold advanceTarget
  rw [hc]
  dsimp only
  exact ⟨rfl, rfl, rfl, calc_now_lt dst cfg tk.now n hc, rfl⟩

/-- C4 witness: Sunday 1970-01-04 at 06:20 with last_sent = day 0: the
excluded-weekday tick invokes nothing and advances the schedule into the
future. -/
theorem C4_witness :
    (tickStep (fun _ => false) ⟨6, 20⟩ ⟨0, 3 * 86400 + 22800⟩
        ⟨3 * 86400 + 22800, RunOutcome.configSkip⟩).producerInvoked = false ∧
    (tickStep (fun _ => false) ⟨6, 20⟩ ⟨0, 3 * 86400 + 22800⟩
        ⟨3 * 86400 + 22800, RunOutcome.configSkip⟩).deliveryAttempted = false ∧
    calculate_next_target_time (fun _ => false) ⟨6, 20⟩ (3 * 86400 + 22800) =
      some (tickStep (fun _ => false) ⟨6, 20⟩ ⟨0, 3 * 86400 + 22800⟩
        ⟨3 * 86400 + 22800, RunOutcome.configSkip⟩).state.nextTarget ∧
    (3 * 86400 + 22800 : Nat) < (tickStep (fun _ => false) ⟨6, 20⟩ ⟨0, 3 * 86400 + 22800⟩
        ⟨3 * 86400 + 22800, RunOutcome.configSkip⟩).state.nextTarget ∧
    (tickStep (fun _ => false) ⟨6, 20⟩ ⟨0, 3 * 86400 + 22800⟩
        ⟨3 * 86400 + 22800, RunOutcome.configSkip⟩).state.lastSent = 0 := by
  exact C4_weekday_exclusion (fun _ => false) ⟨6, 20⟩ ⟨0, 3 * 86400 + 22800⟩
    ⟨3 * 86400 + 22800, RunOutcome.configSkip⟩
    (by decide) (by decide) (by decide) (by decide)
    (by decide) (by decide) (by decide) (by decide)

/-- C7 counterexample: a trigger at day-5 23:59 whose send completes after
midnight (day-6 00:00:30): the code stamps last_sent_date_kst with the
completion date — `datetime.now(KST_TZ)` at line 579 — namely day 6, NOT
with current_date_key = the pending trigger's date, day 5. -/
theorem C7_counterexample :
    let st : LoopState := ⟨0, 5 * 86400 + 86340⟩
    let tk : Tick := ⟨5 * 86400 + 86350, RunOutcome.sendDone true (6 * 86400 + 30)⟩
    dateOf st.nextTarget = 5 ∧
    st.nextTarget ≤ tk.now ∧ tk.now < st.nextTarget + 60 ∧
    (tickStep (fun _ => false) ⟨6, 20⟩ st tk).deliveryAttempted = true ∧
    (tickStep (fun _ => false) ⟨6, 20⟩ st tk).state.lastSent = 6 ∧
    (6 : Nat) ≠ 5 := by
  decide

/-- C7 (amended): on a triggering, non-excluded tick whose delivery
reports success, the loop sets last_sent_date to the calendar date of the
instant at which the success is observed; this equals current_date_key
(the pending trigger's date) exactly when the completion falls on that
same date.  On a tick without a successful delivery, last_sent_date is
left unchanged. -/
theorem C7_last_sent_stamp (dst : Nat → Bool) (cfg : ScheduleConfig) (st : LoopState)
    (tk : Tick) :
    (∀ d, tk.outcome = RunOutcome.sendDone true d →
      st.nextTarget ≤ tk.now → tk.now < st.nextTarget + 60 →
      dateOf st.nextTarget ≠ st.lastSent →
      ¬(weekdayOf tk.now = 0 ∨ weekdayOf tk.now = 6) →
      (tickStep dst cfg st tk).state.lastSent = dateOf d ∧
        (dateOf d = dateOf st.nextTarget →
          (tickStep dst cfg st tk).state.lastSent = dateOf st.nextTarget)) ∧
    ((∀ d, tk.outcome ≠ RunOutcome.sendDone true d) →
      (tickStep dst cfg st tk).state.lastSent = st.lastSent) := by
  constructor
  · intro d ho c1 c2 c3 wk
    obtain ⟨h1, -, -⟩ := tickStep_success dst cfg st tk d c1 c2 c3 wk ho
    exact ⟨h1, fun he => by rw [h1, he]⟩
  · exact tickStep_nosuccess dst cfg st tk

/-- C7 witness: a success completing at 06:23:20 of the trigger's own day
5 stamps last_sent with day 5 = current_date_key. -/
theorem C7_witness :
    (tickStep (fun _ => false) ⟨6, 20⟩ ⟨0, 5 * 86400 + 22800⟩
        ⟨5 * 86400 + 22810, RunOutcome.sendDone true (5 * 86400 + 23000)⟩).state.lastSent =
      dateOf (5 * 86400 + 23000) := by
  exact ((C7_last_sent_stamp (fun _ => false) ⟨6, 20⟩ ⟨0, 5 * 86400 + 22800⟩
      ⟨5 * 86400 + 22810, RunOutcome.sendDone true (5 * 86400 + 23000)⟩).1
    (5 * 86400 + 23000) rfl (by decide) (by decide) (by decide) (by decide)).1

/-- C8 counterexample: next_target is day-100 06:20 and the current tick
is day-101 00:30 — the stored target's date has fully elapsed, the tick
is over 18 hours past the target — yet no recomputation happens, because
the catch-up branch additionally requires `current_kst.hour >
BASE_TARGET_HOUR_KST + 1` (here hour 0 is not > 7): the stale value
survives the tick (and a recomputation would have changed it). -/
theorem C8_counterexample :
    let st : LoopState := ⟨0, 100 * 86400 + 22800⟩
    let tk : Tick := ⟨101 * 86400 + 1800, RunOutcome.configSkip⟩
    st.nextTarget + 3600 < tk.now ∧
    dateOf st.nextTarget < dateOf tk.now ∧
    (tickStep (fun _ => false) ⟨6, 20⟩ st tk).state.nextTarget = st.nextTarget ∧
    calculate_next_target_time (fun _ => false) ⟨6, 20⟩ tk.now ≠ some st.nextTarget := by
  decide

/-- C8 (amended): the catch-up recomputation fires exactly under the
code's condition — the trigger branch did not fire, the tick's
day-of-month differs from the stored target's day-of-month (not the full
date), and the tick's hour exceeds the configured BASE hour plus one (two
or more hours past the base hour, regardless of any DST correction); in
that case next_target is recomputed from the current instant and
last_sent is untouched.  Outside this condition (for example during the
first hours after midnight, or when day-of-month numbers coincide across
months) a stale target survives the tick. -/
theorem C8_catch_up (dst : Nat → Bool) (cfg : ScheduleConfig) (st : LoopState)
    (tk : Tick)
    (hv1 : 1 ≤ cfg.baseHour) (hv2 : cfg.baseHour ≤ 23)
    (hv3 : 0 ≤ cfg.baseMinute) (hv4 : cfg.baseMinute ≤ 59)
    (hnottrig : ¬(st.nextTarget ≤ tk.now ∧ tk.now < st.nextTarget + 60 ∧
      dateOf st.nextTarget ≠ st.lastSent))
    (hday : dayOfMonthOf tk.now ≠ dayOfMonthOf st.nextTarget)
    (hhour : (hourOf tk.now : Int) > cfg.baseHour + 1) :
    calculate_next_target_time dst cfg tk.now =
      some (tickStep dst cfg st tk).state.nextTarget ∧
    (tickStep dst cfg st tk).state.lastSent = st.lastSent := by
  obtain ⟨n, hc⟩ := calc_valid_some dst cfg tk.now hv1 hv2 hv3 hv4
  unfold tickStep
  rw [if_neg hnottrig, if_pos ⟨hday, hhour⟩]
  dsimp only
  unfold advanceTarget
  rw [hc]
  dsimp only
  exact ⟨rfl, rfl⟩

/-- C8 witness: stale target day-100 06:20, tick at day-101 08:30 (hour 8
> 7, day-of-month 12 vs 11): the catch-up branch recomputes next_target
from the tick instant. -/
theorem C8_witness :
    calculate_next_target_time (fun _ => false) ⟨6, 20⟩ (101 * 86400 + 30600) =
      some (tickStep (fun _ => false) ⟨6, 20⟩ ⟨0, 100 * 86400 + 22800⟩
        ⟨101 * 86400 + 30600, RunOutcome.configSkip⟩).state.nextTarget ∧
    (tickStep (fun _ => false) ⟨6, 20⟩ ⟨0, 100 * 86400 + 22800⟩
        ⟨101 * 86400 + 30600, RunOutcome.configSkip⟩).state.lastSent = 0 := by
  exact C8_catch_up (fun _ => false) ⟨6, 20⟩ ⟨0, 100 * 86400 + 22800⟩
    ⟨101 * 86400 + 30600, RunOutcome.configSkip⟩
    (by decide) (by decide) (by decide) (by decide)
    (by decide) (by decide) (by decide)

/-- C5, evaluated at the failing input: when every attempt exceeds the
50-second wall-clock timeout, plot_vix_sp500 performs exactly 4
invocations and returns a failure — but with NO inter-attempt delay at
all, not the configured 5, 25, 125 backoff sequence: the TimeoutError
branch falls through to the next attempt without sleeping, contradicting
its own comment ("Continue to exponential backoff and retry") and the
spec.  Generic (non-timeout) failures do follow the 5 ** attempt
backoff. -/
theorem C5_timeout_no_backoff :
    plot_vix_sp500 PlotOutcome.timeout PlotOutcome.timeout PlotOutcome.timeout
        PlotOutcome.timeout = ⟨false, 4, []⟩ ∧
    ([] : List Nat) ≠ [5, 25, 125] ∧
    plot_vix_sp500 PlotOutcome.fail PlotOutcome.fail PlotOutcome.fail PlotOutcome.fail =
      ⟨false, 4, [5, 25, 125]⟩ := by
  decide

/-- C6 counterexample: a definitive application-level rejection on the
first attempt (Telegram answers `ok: false`) is retried like any
transient failure — the second attempt runs (after a 1 s backoff) and
succeeds — contradicting the claim that such terminal failures are
reported immediately without retry. -/
theorem C6_counterexample :
    (send_photo_via_http SendOutcome.apiReject SendOutcome.ok SendOutcome.ok).invocations
        = 2 ∧
    (send_photo_via_http SendOutcome.apiReject SendOutcome.ok
        SendOutcome.ok).delays = [1] ∧
    (2 : Nat) ≠ 1 := by
  decide

/-- C6 (amended): send_photo_via_http retries EVERY failure kind alike —
network errors, non-success response codes, and application-level
rejections — up to the fixed 3 attempts with exponential backoff delays
of 1 s then 2 s, stops at the first success, and always returns a single
final boolean: False after three failures, True as soon as an attempt
succeeds. -/
theorem C6_send_retries :
    (∀ o1 o2 o3 : SendOutcome, o1 ≠ SendOutcome.ok → o2 ≠ SendOutcome.ok →
      o3 ≠ SendOutcome.ok → send_photo_via_http o1 o2 o3 = ⟨false, 3, [1, 2]⟩) ∧
    (∀ o2 o3 : SendOutcome, send_photo_via_http SendOutcome.ok o2 o3 = ⟨true, 1, []⟩) ∧
    (∀ o1 o3 : SendOutcome, o1 ≠ SendOutcome.ok →
      send_photo_via_http o1 SendOutcome.ok o3 = ⟨true, 2, [1]⟩) ∧
    (∀ o1 o2 : SendOutcome, o1 ≠ SendOutcome.ok → o2 ≠ SendOutcome.ok →
      send_photo_via_http o1 o2 SendOutcome.ok = ⟨true, 3, [1, 2]⟩) := by
  refine ⟨?_, ?_, ?_, ?_⟩
  · intro o1 o2 o3 h1 h2 h3
    cases o1 <;> cases o2 <;> cases o3 <;>
      first
        | exact absurd rfl h1
        | exact absurd rfl h2
        | exact absurd rfl h3
        | decide
  · intro o2 o3
    cases o2 <;> cases o3 <;> decide
  · intro o1 o3 h1
    cases o1 <;> cases o3 <;>
      first
        | exact absurd rfl h1
        | decide
  · intro o1 o2 h1 h2
    cases o1 <;> cases o2 <;>
      first
        | exact absurd rfl h1
        | exact absurd rfl h2
        | decide

/-- C6 witness: three generic network failures give False after 3
attempts with delays 1 s and 2 s. -/
theorem C6_witness :
    send_photo_via_http SendOutcome.netError SendOutcome.badStatus SendOutcome.netError =
      ⟨false, 3, [1, 2]⟩ := by
  exact C6_send_retries.1 SendOutcome.netError SendOutcome.badStatus SendOutcome.netError
    (by decide) (by decide) (by decide)

/-- C9: with placeholder credentials (in particular the values left by a
missing environment), process startup still succeeds — the module-level
check only logs a warning, modelled by the total startupCheck returning
true — and every delivery cycle short-circuits at send time as a
configuration failure: run_and_send_plot returns False without
performing a send, whatever the producer and delivery outcomes would
have been. -/
theorem C9_credentials (c : Credentials)
    (h : credentialsArePlaceholder c = true) :
    startupCheck c = true ∧
    ∀ plotOk sendOk, runAndSendOutcome c plotOk sendOk = (false, false) := by
  refine ⟨h, fun plotOk sendOk => ?_⟩
  simp [runAndSendOutcome, h]

/-- C9 witness: a fully missing environment yields the placeholder
defaults, a startup warning, and send-time short-circuits. -/
theorem C9_witness :
    startupCheck (loadCredentials fun _ => none) = true ∧
    ∀ plotOk sendOk,
      runAndSendOutcome (loadCredentials fun _ => none) plotOk sendOk = (false, false) := by
  exact C9_credentials (loadCredentials fun _ => none) (by decide)

/-- C10: the gold metrics are computed exactly once, at module
initialisation (line 170, evaluated at import time), and that single
result is reused unchanged by every cycle's caption (line 551) with no
per-cycle gold fetch, while the fear/greed and USDT caption data come
from the cycle's own fetches (lines 549-550). -/
theorem C10_gold_cached (goldApi : Option GoldMetrics) (cycles : List CycleData) :
    (processCaptions goldApi cycles).2 = 1 ∧
    (∀ cap ∈ (processCaptions goldApi cycles).1,
      cap.gold = get_core_metrics goldApi ∧ cap.goldFetchedThisCycle = false) ∧
    (∀ cd ∈ cycles,
      (cycleCaption (goldModuleInit goldApi) cd).fearGreed = cd.fearGreed ∧
      (cycleCaption (goldModuleInit goldApi) cd).usdt = cd.usdt) := by
  refine ⟨rfl, ?_, ?_⟩
  · intro cap hc
    simp only [processCaptions, List.mem_map] at hc
    obtain ⟨cd, -, hcd⟩ := hc
    subst hcd
    exact ⟨rfl, rfl⟩
  · intro cd hcd
    exact ⟨rfl, rfl⟩

/-- C10 witness: two cycles with different per-cycle data both carry the
single gold triple computed at initialisation. -/
theorem C10_witness :
    (processCaptions (some ⟨1, 2, 3⟩) [⟨10, 20⟩, ⟨30, 40⟩]).2 = 1 ∧
    (∀ cap ∈ (processCaptions (some ⟨1, 2, 3⟩) [⟨10, 20⟩, ⟨30, 40⟩]).1,
      cap.gold = get_core_metrics (some ⟨1, 2, 3⟩) ∧ cap.goldFetchedThisCycle = false) ∧
    (∀ cd ∈ [(⟨10, 20⟩ : CycleData), ⟨30, 40⟩],
      (cycleCaption (goldModuleInit (some ⟨1, 2, 3⟩)) cd).fearGreed = cd.fearGreed ∧
      (cycleCaption (goldModuleInit (some ⟨1, 2, 3⟩)) cd).usdt = cd.usdt) :=
  C10_gold_cached (some ⟨1, 2, 3⟩) [⟨10, 20⟩, ⟨30, 40⟩]
